import Mathlib

/-!
Verification of the neuroswarm governance core: a shallow embedding of
`src/governance/coalition.py` (GovernanceCoalition), the SDK proposal type
(`src/sdk/python/agent_swarm_sdk/proposal.py`), the conflict detection of
`src/agents/consensus_agent.py`, and the tabular Q-learning of
`src/agents/enhanced_learning_agent.py`.

Python floats are modelled as exact rationals (ℚ); every constant that
appears in the code (0.1, 0.95, 0.667, 0.4, 1.0, 0.5) is an exact decimal,
so the modelled arithmetic agrees with the intent of the source.  Python
dicts are modelled as insertion-ordered association lists with the usual
dict semantics: assignment replaces the value of an existing key in place
and appends a fresh key at the end; iteration and `.values()` follow list
order.
-/

/-- Python dict lookup: the value of the first entry with the given key. -/
def dictLookup {α β : Type} [DecidableEq α] : List (α × β) → α → Option β
  | [], _ => none
  | (k, v) :: t, k₀ => if k = k₀ then some v else dictLookup t k₀

/-- Python `key in dict`. -/
def dictMem {α β : Type} [DecidableEq α] (l : List (α × β)) (k : α) : Bool :=
  (dictLookup l k).isSome

/-- Lookup with a default value. -/
def lookupD {α β : Type} [DecidableEq α] (l : List (α × β)) (k : α) (d : β) : β :=
  (dictLookup l k).getD d

/-- Python dict assignment `d[k] = v`: replace in place, or append. -/
def dictInsert {α β : Type} [DecidableEq α] : List (α × β) → α → β → List (α × β)
  | [], k, v => [(k, v)]
  | (k₀, v₀) :: t, k, v =>
      if k₀ = k then (k, v) :: t else (k₀, v₀) :: dictInsert t k v

/-- Python in-place arithmetic on a dict entry, e.g. `d[k] += x`: apply `f`
to the first entry with the given key (a missing key raises in Python and
is left unchanged here; the theorems below always supply a present key). -/
def dictAdjust {α β : Type} [DecidableEq α] (f : β → β) : List (α × β) → α → List (α × β)
  | [], _ => []
  | (k₀, v₀) :: t, k =>
      if k₀ = k then (k₀, f v₀) :: t else (k₀, v₀) :: dictAdjust f t k

/-- Python `d.pop(k)` / `del d[k]`: drop the first entry with the key. -/
def dictErase {α β : Type} [DecidableEq α] : List (α × β) → α → List (α × β)
  | [], _ => []
  | (k₀, v₀) :: t, k => if k₀ = k then t else (k₀, v₀) :: dictErase t k

/-- Python `sum(d.values())`. -/
def sumValues {α : Type} (l : List (α × ℚ)) : ℚ :=
  (l.map Prod.snd).sum

/-- ASCII lower-casing of one character, as Python `str.lower` acts on the
ASCII vote strings used throughout the source. -/
def charLower (c : Char) : Char :=
  if 65 ≤ c.toNat ∧ c.toNat ≤ 90 then Char.ofNat (c.toNat + 32) else c

/-- Python `s.lower()` on ASCII strings. -/
def pyLower (s : String) : String :=
  String.mk (s.data.map charLower)

/-- `VotingMethod` enum of `coalition.py`. -/
inductive VotingMethod where
  | simple_majority
  | supermajority
  | unanimous
  | quadratic
  | reputation_weighted
  deriving DecidableEq

/-- `GovernanceProposal` dataclass of `coalition.py`.  The vote ledgers map
agent id to vote weight, exactly as the three Python dicts do. -/
structure GovernanceProposal where
  id : Nat
  title : String
  description : String
  proposer : String
  proposal_type : String
  voting_method : VotingMethod
  votes_for : List (String × ℚ)
  votes_against : List (String × ℚ)
  votes_abstain : List (String × ℚ)
  required_threshold : ℚ
  deadline : Int
  executed : Bool
  deriving DecidableEq

/-- `GovernanceCoalition` state: name, member set (Python `set`, modelled as
the insertion list), default voting method, proposal dict, reputation dict. -/
structure GovernanceCoalition where
  name : String
  members : List String
  voting_method : VotingMethod
  proposals : List (Nat × GovernanceProposal)
  reputation : List (String × ℚ)
  deriving DecidableEq

/-- `GovernanceCoalition.__init__`: every initial member gets reputation 100.0. -/
def mkGovernanceCoalition (name : String) (members : List String)
    (voting_method : VotingMethod) : GovernanceCoalition :=
  { name := name
    members := members.dedup
    voting_method := voting_method
    proposals := []
    reputation := members.dedup.map (fun m => (m, (100 : ℚ))) }

/-- `GovernanceCoalition.add_member`. -/
def addMember (c : GovernanceCoalition) (agent_id : String)
    (initial_reputation : ℚ) : GovernanceCoalition :=
  if agent_id ∈ c.members then c
  else
    { c with
      members := c.members ++ [agent_id]
      reputation := dictInsert c.reputation agent_id initial_reputation }

/-- Exact square root on ℚ, agreeing with Python `x ** 0.5` on perfect
squares (the quadratic strategy is outside every claim below; on
non-squares Python computes a float approximation with no exact rational
counterpart, and this model returns the floor-sqrt of numerator and
denominator instead). -/
def qsqrt (q : ℚ) : ℚ :=
  (Nat.sqrt q.num.toNat : ℚ) / (Nat.sqrt q.den : ℚ)

/-- `GovernanceCoalition._calculate_vote_weight`. -/
def calculateVoteWeight (c : GovernanceCoalition) (voter : String)
    (method : VotingMethod) : ℚ :=
  match method with
  | .simple_majority => 1
  | .supermajority => 1
  | .unanimous => 1
  | .reputation_weighted =>
      lookupD c.reputation voter 0 / sumValues c.reputation * c.members.length
  | .quadratic => qsqrt (lookupD c.reputation voter 0)

/-- `GovernanceCoalition.vote`: raises `ValueError` (here: `Except.error`)
for an unknown proposal or a non-member voter, computes the weight when no
explicit weight is passed, then records the vote in the bucket selected by
the lower-cased vote string (any string other than approve/reject counts as
abstain, as in the Python `else`). -/
def coalitionVote (c : GovernanceCoalition) (proposal_id : Nat) (voter : String)
    (v : String) (vote_weight : Option ℚ) : Except String GovernanceCoalition :=
  match dictLookup c.proposals proposal_id with
  | none => .error "Proposal not found"
  | some proposal =>
    if voter ∈ c.members then
      let w := vote_weight.getD (calculateVoteWeight c voter proposal.voting_method)
      let proposal' :=
        if pyLower v = "approve" then
          { proposal with votes_for := dictInsert proposal.votes_for voter w }
        else if pyLower v = "reject" then
          { proposal with votes_against := dictInsert proposal.votes_against voter w }
        else
          { proposal with votes_abstain := dictInsert proposal.votes_abstain voter w }
      .ok { c with proposals := dictInsert c.proposals proposal_id proposal' }
    else .error "Voter not in coalition"

/-- `GovernanceCoalition.create_proposal`. -/
def createProposal (c : GovernanceCoalition) (proposer title description
    proposal_type : String) (voting_method : Option VotingMethod)
    (required_threshold : ℚ) (deadline : Int) :
    Except String (GovernanceProposal × GovernanceCoalition) :=
  if proposer ∈ c.members then
    let proposal : GovernanceProposal :=
      { id := c.proposals.length
        title := title
        description := description
        proposer := proposer
        proposal_type := proposal_type
        voting_method := voting_method.getD c.voting_method
        votes_for := []
        votes_against := []
        votes_abstain := []
        required_threshold := required_threshold
        deadline := deadline
        executed := false }
    .ok (proposal, { c with proposals := dictInsert c.proposals proposal.id proposal })
  else .error "Proposer not in coalition"

/-- Result dict of `GovernanceCoalition.tally_votes`. -/
structure TallyResult where
  proposal_id : Nat
  total_for : ℚ
  total_against : ℚ
  approval_rate : ℚ
  required_threshold : ℚ
  passed : Bool
  voting_method : VotingMethod
  deriving DecidableEq

/-- `GovernanceCoalition.tally_votes`: sums the recorded weights of the for
and against buckets (abstains never enter), takes approval rate 0.0 on an
empty denominator, and passes iff the rate is at least the threshold. -/
def tallyVotes (c : GovernanceCoalition) (proposal_id : Nat) :
    Except String TallyResult :=
  match dictLookup c.proposals proposal_id with
  | none => .error "Proposal not found"
  | some proposal =>
    let total_for := sumValues proposal.votes_for
    let total_against := sumValues proposal.votes_against
    let total_votes := total_for + total_against
    let approval_rate := if total_votes = 0 then 0 else total_for / total_votes
    .ok { proposal_id := proposal_id
          total_for := total_for
          total_against := total_against
          approval_rate := approval_rate
          required_threshold := proposal.required_threshold
          passed := decide (approval_rate ≥ proposal.required_threshold)
          voting_method := proposal.voting_method }

/-- The per-member step of `GovernanceCoalition._update_reputation`: the four
`if/elif` branches of the Python loop body, in source order. -/
def reputationStep (proposal : GovernanceProposal) (outcome : Bool)
    (rep : List (String × ℚ)) (voter : String) : List (String × ℚ) :=
  if dictMem proposal.votes_for voter && outcome then
    dictAdjust (fun r => r + 1) rep voter
  else if dictMem proposal.votes_against voter && !outcome then
    dictAdjust (fun r => r + 1) rep voter
  else if dictMem proposal.votes_for voter && !outcome then
    dictAdjust (fun r => r - 1/2) rep voter
  else if dictMem proposal.votes_against voter && outcome then
    dictAdjust (fun r => r - 1/2) rep voter
  else rep

/-- `GovernanceCoalition._update_reputation`: fold the per-member step over
the member set (a missing proposal id raises in Python; the method is only
invoked internally on a present id). -/
def updateReputation (c : GovernanceCoalition) (proposal_id : Nat)
    (outcome : Bool) : GovernanceCoalition :=
  match dictLookup c.proposals proposal_id with
  | none => c
  | some proposal =>
      { c with reputation := c.members.foldl (reputationStep proposal outcome) c.reputation }

/-- `GovernanceCoalition.execute_proposal`: tally first; a failed tally
returns False untouched; an already-executed proposal returns False
untouched; otherwise mark executed and apply the reputation update. -/
def executeProposal (c : GovernanceCoalition) (proposal_id : Nat) :
    Except String (Bool × GovernanceCoalition) := do
  let tally ← tallyVotes c proposal_id
  if !tally.passed then
    .ok (false, c)
  else
    match dictLookup c.proposals proposal_id with
    | none => .error "Proposal not found"
    | some proposal =>
      if proposal.executed then
        .ok (false, c)
      else
        let c' := { c with
          proposals := dictInsert c.proposals proposal_id { proposal with executed := true } }
        .ok (true, updateReputation c' proposal_id tally.passed)

/-- SDK `Proposal` of `agent_swarm_sdk/proposal.py`: a single vote dict
mapping voter to vote string. -/
structure SdkProposal where
  id : Nat
  proposer : String
  proposal_type : String
  description : String
  votes : List (String × String)
  executed : Bool
  deriving DecidableEq

/-- `Proposal.__init__` of the SDK. -/
def mkSdkProposal (id : Nat) (proposer proposal_type description : String) :
    SdkProposal :=
  { id := id
    proposer := proposer
    proposal_type := proposal_type
    description := description
    votes := []
    executed := false }

/-- `Proposal.record_vote` of the SDK: plain dict assignment. -/
def recordVote (p : SdkProposal) (voter v : String) : SdkProposal :=
  { p with votes := dictInsert p.votes voter v }

/-- `Proposal.get_status` of the SDK. -/
def sdkStatus (p : SdkProposal) : String :=
  if p.executed then "executed"
  else if p.votes.isEmpty then "pending"
  else
    let approve_count := (p.votes.filter (fun q => q.2 = "approve")).length
    let reject_count := (p.votes.filter (fun q => q.2 = "reject")).length
    if approve_count > reject_count then "approved"
    else if reject_count > approve_count then "rejected"
    else "tied"

/-- Conflict-detection core of `ConsensusAgent.analyze_and_decide`
(`consensus_agent.py`): the on-chain vote counts (ints) are summed with the
abstain count included; when the total is positive, the for and against
ratios are each taken over that total and the proposal is flagged contested
when their absolute difference is below the conflict threshold
(`self.conflict_threshold`, set to 0.4 in `__init__`). -/
def isContested (conflict_threshold : ℚ) (votes_for votes_against
    votes_abstain : ℕ) : Bool :=
  let total_votes : ℕ := votes_for + votes_against + votes_abstain
  if total_votes > 0 then
    let for_ratio : ℚ := (votes_for : ℚ) / (total_votes : ℚ)
    let against_ratio : ℚ := (votes_against : ℚ) / (total_votes : ℚ)
    decide (|for_ratio - against_ratio| < conflict_threshold)
  else false

/-- Contested-flag predicate transcribed from the specification text, for
comparison with `isContested`: `forRatio = for/(for+against)` with abstains
excluded, `againstRatio = 1 - forRatio`, contested when the absolute
difference is below the threshold and the non-abstain vote count is at
least 2. -/
def contestedPerSpec (conflict_threshold : ℚ) (votes_for votes_against : ℕ) :
    Bool :=
  let for_ratio : ℚ := (votes_for : ℚ) / ((votes_for : ℚ) + (votes_against : ℚ))
  let against_ratio : ℚ := 1 - for_ratio
  decide (|for_ratio - against_ratio| < conflict_threshold) &&
    decide (votes_for + votes_against ≥ 2)

/-- One row of the Q-table of `enhanced_learning_agent.py`: the per-state
dict over the three actions. -/
structure QEntry where
  approve : ℚ
  reject : ℚ
  abstain : ℚ
  deriving DecidableEq

/-- Read a Q-value by action string, as `self.q_table[state][action]` does
for the three dict keys (any other string raises KeyError in Python and is
outside every theorem below). -/
def QEntry.get (e : QEntry) (a : String) : ℚ :=
  if a = "approve" then e.approve
  else if a = "reject" then e.reject
  else if a = "abstain" then e.abstain
  else 0

/-- Write a Q-value by action string (same domain remark as `QEntry.get`). -/
def QEntry.set (e : QEntry) (a : String) (v : ℚ) : QEntry :=
  if a = "approve" then { e with approve := v }
  else if a = "reject" then { e with reject := v }
  else if a = "abstain" then { e with abstain := v }
  else e

/-- The zero row installed by the lazy initialization. -/
def zeroEntry : QEntry := { approve := 0, reject := 0, abstain := 0 }

/-- Python `max(self.q_table[state].values())`. -/
def QEntry.maxVal (e : QEntry) : ℚ :=
  max e.approve (max e.reject e.abstain)

/-- Python `max(q_values, key=q_values.get)` over the dict with insertion
order approve, reject, abstain: the first key attaining the maximum, so
ties break in that fixed order. -/
def QEntry.argmax (e : QEntry) : String :=
  if e.approve ≥ e.reject ∧ e.approve ≥ e.abstain then "approve"
  else if e.reject ≥ e.abstain then "reject"
  else "abstain"

/-- RL state key: `(market_condition, proposal_type, risk_level)`. -/
def QState : Type := String × String × String

instance : DecidableEq QState := by
  unfold QState
  infer_instance

/-- `EnhancedLearningAgent` state: Q-learning parameters and the Q-table
(wallet, RPC client and the SQLite mirror are I/O plumbing outside the
decision logic). -/
structure EnhancedLearningAgent where
  learning_rate : ℚ
  discount_factor : ℚ
  exploration_rate : ℚ
  q_table : List (QState × QEntry)
  deriving DecidableEq

/-- `EnhancedLearningAgent.__init__`: α = 0.1, γ = 0.95, ε = 0.2, empty
table. -/
def mkEnhancedLearningAgent : EnhancedLearningAgent :=
  { learning_rate := 1/10
    discount_factor := 95/100
    exploration_rate := 2/10
    q_table := [] }

/-- `EnhancedLearningAgent._update_q_value`: lazily install the zero row
for an unseen state, then apply
Q(s,a) ← Q(s,a) + α·(reward + γ·max(Q(s,·)) − Q(s,a)). -/
def updateQValue (ag : EnhancedLearningAgent) (state : QState) (action : String)
    (reward : ℚ) : EnhancedLearningAgent :=
  let table :=
    if dictMem ag.q_table state then ag.q_table
    else dictInsert ag.q_table state zeroEntry
  let e := lookupD table state zeroEntry
  let current_q := e.get (pyLower action)
  let max_future_q := e.maxVal
  let new_q := current_q + ag.learning_rate *
    (reward + ag.discount_factor * max_future_q - current_q)
  { ag with q_table := dictInsert table state (e.set (pyLower action) new_q) }

/-- `EnhancedLearningAgent.predict_vote`.  The two random draws are passed
in explicitly: `rand` models `np.random.random()` (a sample in [0,1)) and
`randAction` models `np.random.choice` over the three actions.  With
probability below the exploration rate the random action is returned with
confidence 0.33; otherwise the state row is lazily installed if missing,
the argmax action is chosen, and confidence is
min(1, (maxQ − avgQ + 1)/2). -/
def predictVote (ag : EnhancedLearningAgent) (proposal_type market_condition
    risk_level : String) (rand : ℚ) (randAction : String) :
    String × ℚ × EnhancedLearningAgent :=
  let state : QState := (market_condition, proposal_type, risk_level)
  if rand < ag.exploration_rate then
    (randAction, 33/100, ag)
  else
    let table :=
      if dictMem ag.q_table state then ag.q_table
      else dictInsert ag.q_table state zeroEntry
    let e := lookupD table state zeroEntry
    let action := e.argmax
    let max_q := e.get action
    let avg_q := (e.approve + e.reject + e.abstain) / 3
    let confidence := min 1 ((max_q - avg_q + 1) / 2)
    (action, confidence, { ag with q_table := table })

/-- The five-member council of the end-to-end scenario (equal weights come
from the supermajority method). -/
def councilCoalition : GovernanceCoalition :=
  mkGovernanceCoalition "council" ["A", "B", "C", "D", "E"] .supermajority

/-- End-to-end scenario from proposal creation through voting to tally:
create a proposal with threshold 0.667 on the five-member council, let the
given agents vote, and tally. -/
def councilScenario (votes : List (String × String)) : Except String TallyResult := do
  let (p, c) ← createProposal councilCoalition "A" "raise limit"
    "raise the position limit" "parameter_change" none (667/1000) 86400
  let c ← votes.foldlM (fun c (v : String × String) =>
    coalitionVote c p.id v.1 v.2 none) c
  tallyVotes c p.id

attribute [local semireducible] Rat.add Rat.sub Rat.mul Rat.inv

theorem dictLookup_dictInsert_self {α β : Type} [DecidableEq α]
    (l : List (α × β)) (k : α) (v : β) :
    dictLookup (dictInsert l k v) k = some v := by
  induction l with
  | nil => simp [dictInsert, dictLookup]
  | cons h t ih =>
      obtain ⟨k₀, v₀⟩ := h
      by_cases hk : k₀ = k
      · subst hk
        simp [dictInsert, dictLookup]
      · simp [dictInsert, dictLookup, hk, ih]

theorem dictLookup_dictInsert_ne {α β : Type} [DecidableEq α]
    (l : List (α × β)) (k k₀ : α) (v : β) (h : k₀ ≠ k) :
    dictLookup (dictInsert l k v) k₀ = dictLookup l k₀ := by
  induction l with
  | nil => simp [dictInsert, dictLookup, Ne.symm h]
  | cons hd t ih =>
      obtain ⟨k₁, v₁⟩ := hd
      by_cases hk : k₁ = k
      · subst hk
        simp [dictInsert, dictLookup, Ne.symm h]
      · simp [dictInsert, dictLookup, hk, ih]

/-- C1.  For every coalition, proposal and voting strategy, the pass
decision of `tally_votes` is computed over the recorded weights: whenever
the weighted denominator is nonzero, `passed` is exactly the comparison
(sum of approve weights) / (sum of approve weights + sum of reject weights)
≥ required threshold; the tally never reads the abstain bucket; and in the
end-to-end scenario with threshold 0.667 and five equal-weight voters,
4 approve / 1 reject passes while 3 approve / 2 reject does not. -/
theorem tally_passes_weighted_ratio :
    (∀ (c : GovernanceCoalition) (pid : Nat) (p : GovernanceProposal),
      dictLookup c.proposals pid = some p →
      sumValues p.votes_for + sumValues p.votes_against ≠ 0 →
      (tallyVotes c pid).toOption.map (fun t => t.passed) =
        some (decide (sumValues p.votes_for /
          (sumValues p.votes_for + sumValues p.votes_against) ≥
            p.required_threshold))) ∧
    (∀ (c : GovernanceCoalition) (pid : Nat) (p : GovernanceProposal)
      (ab : List (String × ℚ)),
      dictLookup c.proposals pid = some p →
      tallyVotes { c with proposals := (dictInsert c.proposals pid
          { p with votes_abstain := ab }) } pid =
        tallyVotes c pid) ∧
    (councilScenario [("A", "approve"), ("B", "approve"), ("C", "approve"),
        ("D", "approve"), ("E", "reject")]).toOption.map (fun t => t.passed) =
      some true ∧
    (councilScenario [("A", "approve"), ("B", "approve"), ("C", "approve"),
        ("D", "reject"), ("E", "reject")]).toOption.map (fun t => t.passed) =
      some false := by
  refine ⟨?_, ?_, by decide, by decide⟩
  · intro c pid p h hne
    simp [tallyVotes, h, hne]
    exact ⟨_, rfl, rfl⟩
  · intro c pid p ab h
    simp [tallyVotes, h, dictLookup_dictInsert_self]

/-- Concrete coalition state used to witness C1: the council carrying a
proposal with one approve vote of weight 1 and one reject vote of weight 1. -/
def councilWithTally : GovernanceCoalition :=
  { councilCoalition with proposals :=
      [(0, { id := 0, title := "t", description := "d", proposer := "A",
             proposal_type := "pt", voting_method := .supermajority,
             votes_for := [("A", 1)], votes_against := [("E", 1)],
             votes_abstain := [], required_threshold := 667/1000,
             deadline := 86400, executed := false })] }

/-- Witness for C1: the general pass rule of the theorem evaluated on the
concrete coalition state `councilWithTally`. -/
theorem tally_passes_weighted_ratio_witness :
    dictLookup councilWithTally.proposals 0 =
      some { id := 0, title := "t", description := "d", proposer := "A",
             proposal_type := "pt", voting_method := .supermajority,
             votes_for := [("A", 1)], votes_against := [("E", 1)],
             votes_abstain := [], required_threshold := 667/1000,
             deadline := 86400, executed := false } ∧
    sumValues [("A", (1 : ℚ))] + sumValues [("E", (1 : ℚ))] ≠ 0 ∧
    (tallyVotes councilWithTally 0).toOption.map (fun t => t.passed) =
      some (decide (sumValues [("A", (1 : ℚ))] /
        (sumValues [("A", (1 : ℚ))] + sumValues [("E", (1 : ℚ))]) ≥
          (667/1000 : ℚ))) :=
  ⟨by decide, by decide,
    tally_passes_weighted_ratio.1 councilWithTally 0
      { id := 0, title := "t", description := "d", proposer := "A",
        proposal_type := "pt", voting_method := .supermajority,
        votes_for := [("A", 1)], votes_against := [("E", 1)],
        votes_abstain := [], required_threshold := 667/1000,
        deadline := 86400, executed := false } (by decide) (by decide)⟩

/-- Two-member coalition used for the re-vote and execution experiments. -/
def pairCoalition : GovernanceCoalition :=
  mkGovernanceCoalition "pair" ["a", "b"] .simple_majority

/-- State after agent a votes approve and then changes the vote to reject
on the same proposal. -/
def revoteState : Except String GovernanceCoalition := do
  let (p, c) ← createProposal pairCoalition "a" "t" "d" "pt" none (1/2) 86400
  let c ← coalitionVote c p.id "a" "approve" none
  coalitionVote c p.id "a" "reject" none

/-- C2 (code bug).  When an agent re-votes with a different choice, the
earlier vote is NOT removed from its bucket: after agent a votes approve
and then reject on proposal 0, the agent sits in both `votes_for` and
`votes_against`, and the tally counts weight 1 on each side, so the earlier
choice still contributes — the upsert the claim describes does not happen
across buckets in `GovernanceCoalition.vote`. -/
theorem vote_change_double_counts :
    (revoteState.toOption.bind (fun c => dictLookup c.proposals 0)).map
      (fun p => (dictMem p.votes_for "a", dictMem p.votes_against "a")) =
      some (true, true) ∧
    revoteState.toOption.map (fun c => (tallyVotes c 0).toOption.map
      (fun t => (t.total_for, t.total_against))) =
      some (some ((1 : ℚ), (1 : ℚ))) := by
  constructor
  · decide
  · decide

/-- State holding an executed proposal: both members approve, the proposal
passes the 0.5 threshold and is executed. -/
def executedState : Except String GovernanceCoalition := do
  let (p, c) ← createProposal pairCoalition "a" "t" "d" "pt" none (1/2) 86400
  let c ← coalitionVote c p.id "a" "approve" none
  let c ← coalitionVote c p.id "b" "approve" none
  let r ← executeProposal c p.id
  pure r.2

/-- C3 (code bug).  Voting on an executed proposal does not fail and does
mutate the ledger: in the reachable state `executedState` proposal 0 has
`executed = true`, yet a fresh reject vote by agent b returns successfully
and lands in `votes_against` — neither `GovernanceCoalition.vote` nor the
SDK `Proposal.record_vote` checks the executed flag. -/
theorem vote_on_executed_mutates :
    (executedState.toOption.bind (fun c => dictLookup c.proposals 0)).map
      (fun p => p.executed) = some true ∧
    ((executedState.toOption.bind
        (fun c => (coalitionVote c 0 "b" "reject" none).toOption)).bind
      (fun c => dictLookup c.proposals 0)).map
      (fun p => (p.executed, dictMem p.votes_against "b")) =
      some (true, true) ∧
    (recordVote { mkSdkProposal 0 "a" "pt" "d" with executed := true }
      "b" "reject").votes = [("b", "reject")] := by
  refine ⟨by decide, by decide, by decide⟩

/-- Concrete coalition carrying an already-executed proposal, used to
witness C4. -/
def pairExecuted : GovernanceCoalition :=
  { pairCoalition with proposals :=
      [(0, { id := 0, title := "t", description := "d", proposer := "a",
             proposal_type := "pt", voting_method := .simple_majority,
             votes_for := [("a", 1), ("b", 1)], votes_against := [],
             votes_abstain := [], required_threshold := 1/2,
             deadline := 86400, executed := true })] }

/-- C4.  Re-executing an already-executed proposal is a no-op: whenever the
stored proposal has `executed = true`, `execute_proposal` returns False
with the coalition state — reputation dict included — unchanged, so the
reputation deltas of a resolution are applied at most once. -/
theorem execute_repeat_no_side_effects :
    ∀ (c : GovernanceCoalition) (pid : Nat) (p : GovernanceProposal),
      dictLookup c.proposals pid = some p → p.executed = true →
      executeProposal c pid = .ok (false, c) := by
  intro c pid p h hexec
  simp only [executeProposal, tallyVotes, h]
  by_cases hp : p.required_threshold ≤
      (if sumValues p.votes_for + sumValues p.votes_against = 0 then 0
       else sumValues p.votes_for / (sumValues p.votes_for + sumValues p.votes_against)) <;>
    simp [hp, hexec, Except.bind] <;> rfl

/-- Witness for C4: the no-op rule applied to the concrete executed
proposal of `pairExecuted`. -/
theorem execute_repeat_no_side_effects_witness :
    dictLookup pairExecuted.proposals 0 =
      some { id := 0, title := "t", description := "d", proposer := "a",
             proposal_type := "pt", voting_method := .simple_majority,
             votes_for := [("a", 1), ("b", 1)], votes_against := [],
             votes_abstain := [], required_threshold := 1/2,
             deadline := 86400, executed := true } ∧
    executeProposal pairExecuted 0 = .ok (false, pairExecuted) :=
  ⟨by decide,
    execute_repeat_no_side_effects pairExecuted 0
      { id := 0, title := "t", description := "d", proposer := "a",
        proposal_type := "pt", voting_method := .simple_majority,
        votes_for := [("a", 1), ("b", 1)], votes_against := [],
        votes_abstain := [], required_threshold := 1/2,
        deadline := 86400, executed := true } (by decide) rfl⟩

theorem sumValues_nonneg {α : Type} (l : List (α × ℚ))
    (hpos : ∀ q ∈ l, 0 ≤ q.2) : 0 ≤ sumValues l := by
  unfold sumValues
  refine List.sum_nonneg ?_
  intro x hx
  obtain ⟨q, hq, rfl⟩ := List.mem_map.mp hx
  exact hpos q hq

theorem lookupD_le_sumValues {α : Type} [DecidableEq α] (l : List (α × ℚ))
    (k : α) (hpos : ∀ q ∈ l, 0 ≤ q.2) (hmem : dictMem l k = true) :
    lookupD l k 0 ≤ sumValues l := by
  induction l with
  | nil => simp [dictMem, dictLookup] at hmem
  | cons hd t ih =>
      obtain ⟨k₀, v₀⟩ := hd
      have hv₀ : 0 ≤ v₀ := hpos (k₀, v₀) (List.mem_cons_self _ _)
      have hpos' : ∀ q ∈ t, 0 ≤ q.2 := fun q hq => hpos q (List.mem_cons_of_mem _ hq)
      by_cases hk : k₀ = k
      · have hsum : 0 ≤ sumValues t := sumValues_nonneg t hpos'
        simp [lookupD, dictLookup, hk, sumValues]
        have : sumValues t = (t.map Prod.snd).sum := rfl
        linarith [this ▸ hsum]
      · have hmem' : dictMem t k = true := by
          simpa [dictMem, dictLookup, hk] using hmem
        have := ih hpos' hmem'
        simp [lookupD, dictLookup, hk, sumValues] at this ⊢
        linarith

/-- Coalition reaching a negative reputation value through the public
`add_member` API: member a keeps the 100.0 baseline, member b joins with
initial reputation −5. -/
def skewedCoalition : GovernanceCoalition :=
  addMember (mkGovernanceCoalition "skew" ["a"] .reputation_weighted) "b" (-5)

/-- Counterexample to C5 as stated: in the reachable two-member coalition
`skewedCoalition`, the reputation-weighted weight of member a is 40/19,
which exceeds the member count 2, so a single member CAN exceed the count
of members once a reputation is negative. -/
theorem reputation_weight_exceeds_member_count :
    skewedCoalition.members.length = 2 ∧
    calculateVoteWeight skewedCoalition "a" .reputation_weighted =
      40/19 ∧
    calculateVoteWeight skewedCoalition "a" .reputation_weighted >
      (skewedCoalition.members.length : ℚ) := by
  refine ⟨by decide, by decide, by decide⟩

/-- Three-member coalition with equal (baseline) reputation. -/
def threeEqual : GovernanceCoalition :=
  mkGovernanceCoalition "trio" ["x", "y", "z"] .reputation_weighted

/-- C5 (amended).  The reputation-weighted weight is exactly
reputation[agent] / sum(reputation values) * memberCount; for three
equal-reputation members every weight is exactly 1.0; and provided every
reputation value is nonnegative and their sum positive, no weight exceeds
the member count (the proviso is forced by `skewedCoalition`, where a
negative reputation pushes a weight above the count). -/
theorem reputation_weight_formula_and_bound :
    (∀ (c : GovernanceCoalition) (voter : String),
      calculateVoteWeight c voter .reputation_weighted =
        lookupD c.reputation voter 0 / sumValues c.reputation *
          c.members.length) ∧
    (calculateVoteWeight threeEqual "x" .reputation_weighted = 1 ∧
     calculateVoteWeight threeEqual "y" .reputation_weighted = 1 ∧
     calculateVoteWeight threeEqual "z" .reputation_weighted = 1) ∧
    (∀ (c : GovernanceCoalition) (voter : String),
      (∀ q ∈ c.reputation, 0 ≤ q.2) →
      dictMem c.reputation voter = true →
      0 < sumValues c.reputation →
      calculateVoteWeight c voter .reputation_weighted ≤
        (c.members.length : ℚ)) := by
  refine ⟨fun c voter => rfl, ⟨by decide, by decide, by decide⟩, ?_⟩
  intro c voter hpos hmem hS
  have h1 : lookupD c.reputation voter 0 ≤ sumValues c.reputation :=
    lookupD_le_sumValues c.reputation voter hpos hmem
  have h2 : lookupD c.reputation voter 0 / sumValues c.reputation ≤ 1 :=
    (div_le_one hS).mpr h1
  calc calculateVoteWeight c voter .reputation_weighted
      = lookupD c.reputation voter 0 / sumValues c.reputation *
          c.members.length := rfl
    _ ≤ 1 * (c.members.length : ℚ) :=
        mul_le_mul_of_nonneg_right h2 (by positivity)
    _ = (c.members.length : ℚ) := one_mul _

/-- Witness for C5 (amended): the bound evaluated on the three-member
equal-reputation coalition. -/
theorem reputation_weight_formula_and_bound_witness :
    (∀ q ∈ threeEqual.reputation, 0 ≤ q.2) ∧
    dictMem threeEqual.reputation "x" = true ∧
    0 < sumValues threeEqual.reputation ∧
    calculateVoteWeight threeEqual "x" .reputation_weighted ≤
      (threeEqual.members.length : ℚ) :=
  ⟨by decide, by decide, by decide,
    reputation_weight_formula_and_bound.2.2 threeEqual "x"
      (by decide) (by decide) (by decide)⟩

theorem dictLookup_dictAdjust_self {α β : Type} [DecidableEq α]
    (f : β → β) (l : List (α × β)) (k : α) :
    dictLookup (dictAdjust f l k) k = (dictLookup l k).map f := by
  induction l with
  | nil => simp [dictAdjust, dictLookup]
  | cons hd t ih =>
      obtain ⟨k₀, v₀⟩ := hd
      by_cases hk : k₀ = k
      · subst hk
        simp [dictAdjust, dictLookup]
      · simp [dictAdjust, dictLookup, hk, ih]

theorem dictLookup_dictAdjust_ne {α β : Type} [DecidableEq α]
    (f : β → β) (l : List (α × β)) (k k₀ : α) (h : k ≠ k₀) :
    dictLookup (dictAdjust f l k₀) k = dictLookup l k := by
  induction l with
  | nil => simp [dictAdjust, dictLookup]
  | cons hd t ih =>
      obtain ⟨k₁, v₁⟩ := hd
      by_cases hk : k₁ = k₀
      · subst hk
        simp [dictAdjust, dictLookup, Ne.symm h]
      · simp [dictAdjust, dictLookup, hk, ih]

/-- Reputation delta exactly as the specification states it: agents on the
winning side gain 1.0, agents on the losing side lose 0.5, abstainers and
agents that did not vote are unchanged. -/
def winnerDelta (p : GovernanceProposal) (outcome : Bool) (voter : String)
    (r : ℚ) : ℚ :=
  if (dictMem p.votes_for voter = true ∧ outcome = true) ∨
      (dictMem p.votes_against voter = true ∧ outcome = false) then r + 1
  else if dictMem p.votes_for voter = true ∨
      dictMem p.votes_against voter = true then r - 1/2
  else r

theorem dictLookup_reputationStep_ne (p : GovernanceProposal) (o : Bool)
    (rep : List (String × ℚ)) (m voter : String) (h : voter ≠ m) :
    dictLookup (reputationStep p o rep m) voter = dictLookup rep voter := by
  unfold reputationStep
  split_ifs <;>
    first
      | rfl
      | exact dictLookup_dictAdjust_ne _ rep voter m h

theorem lookupD_reputationStep_self (p : GovernanceProposal) (o : Bool)
    (rep : List (String × ℚ)) (voter : String)
    (hmem : dictMem rep voter = true) :
    lookupD (reputationStep p o rep voter) voter 0 =
      winnerDelta p o voter (lookupD rep voter 0) := by
  obtain ⟨v, hv⟩ := Option.isSome_iff_exists.mp hmem
  cases hf : dictMem p.votes_for voter <;>
    cases ha : dictMem p.votes_against voter <;>
    cases o <;>
    simp [reputationStep, winnerDelta, hf, ha, lookupD,
      dictLookup_dictAdjust_self, hv]

theorem dictLookup_foldl_reputationStep_not_mem (p : GovernanceProposal)
    (o : Bool) (voter : String) :
    ∀ (ms : List String) (rep : List (String × ℚ)), voter ∉ ms →
      dictLookup (ms.foldl (reputationStep p o) rep) voter =
        dictLookup rep voter := by
  intro ms
  induction ms with
  | nil => intro rep _; rfl
  | cons m t ih =>
      intro rep hnm
      have h1 : voter ≠ m := fun h => hnm (h ▸ List.mem_cons_self _ _)
      have h2 : voter ∉ t := fun h => hnm (List.mem_cons_of_mem _ h)
      calc dictLookup ((m :: t).foldl (reputationStep p o) rep) voter
          = dictLookup (t.foldl (reputationStep p o)
              (reputationStep p o rep m)) voter := rfl
        _ = dictLookup (reputationStep p o rep m) voter := ih _ h2
        _ = dictLookup rep voter := dictLookup_reputationStep_ne p o rep m voter h1

theorem lookupD_foldl_reputationStep (p : GovernanceProposal) (o : Bool)
    (voter : String) :
    ∀ (ms : List String) (rep : List (String × ℚ)), voter ∈ ms → ms.Nodup →
      dictMem rep voter = true →
      lookupD (ms.foldl (reputationStep p o) rep) voter 0 =
        winnerDelta p o voter (lookupD rep voter 0) := by
  intro ms
  induction ms with
  | nil => intro rep h; exact absurd h (List.not_mem_nil voter)
  | cons m t ih =>
      intro rep hmem hnd hrep
      by_cases hv : voter = m
      · subst hv
        have hnt : voter ∉ t := (List.nodup_cons.mp hnd).1
        have hstable : dictLookup (t.foldl (reputationStep p o)
            (reputationStep p o rep voter)) voter =
            dictLookup (reputationStep p o rep voter) voter :=
          dictLookup_foldl_reputationStep_not_mem p o voter t _ hnt
        calc lookupD ((voter :: t).foldl (reputationStep p o) rep) voter 0
            = lookupD (reputationStep p o rep voter) voter 0 := by
              simp [lookupD, List.foldl_cons, hstable]
          _ = winnerDelta p o voter (lookupD rep voter 0) :=
              lookupD_reputationStep_self p o rep voter hrep
      · have hmt : voter ∈ t := (List.mem_cons.mp hmem).resolve_left hv
        have hlook : dictLookup (reputationStep p o rep m) voter =
            dictLookup rep voter :=
          dictLookup_reputationStep_ne p o rep m voter hv
        have hrep' : dictMem (reputationStep p o rep m) voter = true := by
          simpa [dictMem, hlook] using hrep
        calc lookupD ((m :: t).foldl (reputationStep p o) rep) voter 0
            = lookupD (t.foldl (reputationStep p o)
                (reputationStep p o rep m)) voter 0 := rfl
          _ = winnerDelta p o voter
              (lookupD (reputationStep p o rep m) voter 0) :=
              ih _ hmt (List.nodup_cons.mp hnd).2 hrep'
          _ = winnerDelta p o voter (lookupD rep voter 0) := by
              simp [lookupD, hlook]

/-- C6.  When a proposal is resolved with an outcome, `_update_reputation`
changes each member reputation exactly as the claim states: a vote on the
winning side (approve when Approved, reject when Rejected) gains exactly
+1.0, a vote on the losing side loses exactly 0.5, and a member that
abstained or did not vote keeps its reputation; the claim presupposes one
vote per agent, so the buckets are assumed disjoint for the member. -/
theorem reputation_update_rule :
    ∀ (c : GovernanceCoalition) (pid : Nat) (p : GovernanceProposal)
      (outcome : Bool) (voter : String),
      dictLookup c.proposals pid = some p →
      voter ∈ c.members → c.members.Nodup →
      dictMem c.reputation voter = true →
      ¬(dictMem p.votes_for voter = true ∧
        dictMem p.votes_against voter = true) →
      lookupD (updateReputation c pid outcome).reputation voter 0 =
        winnerDelta p outcome voter (lookupD c.reputation voter 0) := by
  intro c pid p outcome voter hp hmem hnd hrep _
  unfold updateReputation
  rw [hp]
  exact lookupD_foldl_reputationStep p outcome voter c.members
    c.reputation hmem hnd hrep

/-- The executed proposal stored in `pairExecuted`, as a named constant for
the C6 witness. -/
def executedPairProposal : GovernanceProposal :=
  { id := 0, title := "t", description := "d", proposer := "a",
    proposal_type := "pt", voting_method := .simple_majority,
    votes_for := [("a", 1), ("b", 1)], votes_against := [],
    votes_abstain := [], required_threshold := 1/2,
    deadline := 86400, executed := true }

/-- Witness for C6: in the `pairExecuted` coalition the winning approve
voter a moves from reputation 100 to 101 when the outcome is Approved. -/
theorem reputation_update_rule_witness :
    dictLookup pairExecuted.proposals 0 = some executedPairProposal ∧
    "a" ∈ pairExecuted.members ∧
    pairExecuted.members.Nodup ∧
    dictMem pairExecuted.reputation "a" = true ∧
    ¬(dictMem executedPairProposal.votes_for "a" = true ∧
      dictMem executedPairProposal.votes_against "a" = true) ∧
    lookupD (updateReputation pairExecuted 0 true).reputation "a" 0 =
      winnerDelta executedPairProposal true "a"
        (lookupD pairExecuted.reputation "a" 0) ∧
    lookupD (updateReputation pairExecuted 0 true).reputation "a" 0 = 101 :=
  ⟨by decide, by decide, by decide, by decide, by decide,
    reputation_update_rule pairExecuted 0 executedPairProposal true "a"
      (by decide) (by decide) (by decide) (by decide) (by decide),
    by decide⟩

/-- Counterexample to C7 as stated.  At 3 for / 1 against / 4 abstain the
code flags the proposal contested (ratios 3/8 and 1/8 over the
abstain-inclusive total differ by 1/4 < 0.4) while the claimed rule does
not (abstain-exclusive ratios 3/4 and 1/4 differ by 1/2 ≥ 0.4); and at
0 for / 0 against / 1 abstain the code flags contested while the claimed
rule requires at least 2 non-abstain votes. -/
theorem contested_flag_deviates_from_claim :
    (isContested (2/5) 3 1 4 = true ∧ contestedPerSpec (2/5) 3 1 = false) ∧
    (isContested (2/5) 0 0 1 = true ∧ contestedPerSpec (2/5) 0 0 = false) := by
  refine ⟨⟨by decide, by decide⟩, ⟨by decide, by decide⟩⟩

/-- C7 (amended).  The code flags a proposal contested exactly when the
total vote count INCLUDING abstains is positive and the for and against
ratios over that abstain-inclusive total differ in absolute value by less
than the conflict threshold (default 0.4); there is no 2-vote minimum.
The concrete examples of the claim still hold: 3 for / 2 against / 0
abstain is contested and 9 for / 1 against / 0 abstain is not. -/
theorem contested_flag_rule :
    (∀ (t : ℚ) (vf va vab : ℕ),
      isContested t vf va vab = true ↔
        (0 < vf + va + vab ∧
          |(vf : ℚ) / ((vf : ℚ) + va + vab) -
            (va : ℚ) / ((vf : ℚ) + va + vab)| < t)) ∧
    isContested (2/5) 3 2 0 = true ∧
    isContested (2/5) 9 1 0 = false := by
  refine ⟨?_, by decide, by decide⟩
  intro t vf va vab
  have hq : ((vf + va + vab : ℕ) : ℚ) = (vf : ℚ) + va + vab := by push_cast; ring
  unfold isContested
  by_cases h : vf + va + vab > 0
  · simp [h, hq, decide_eq_true_iff]
  · simp [h]

theorem lookupD_lazy_init {α β : Type} [DecidableEq α]
    (l : List (α × β)) (k : α) (d : β) :
    lookupD (if dictMem l k = true then l else dictInsert l k d) k d =
      lookupD l k d := by
  by_cases h : dictMem l k = true
  · simp [h]
  · have hn : dictLookup l k = none := by
      cases hl : dictLookup l k with
      | none => rfl
      | some v => exact absurd (by simp [dictMem, hl]) h
    simp [h, lookupD, dictLookup_dictInsert_self, hn]

/-- C8.  `_update_q_value` stores, at the given state, the entry whose
value at the lower-cased action is
Q(s,a) + α · (reward + γ · max(Q(s,·)) − Q(s,a)), where the pre-update
entry of an unseen state is the lazily-installed zero row (the `getD
zeroEntry`); entries of every other state are untouched; and the agent
constructor fixes α = 0.1 and γ = 0.95. -/
theorem q_update_rule :
    ∀ (ag : EnhancedLearningAgent) (s : QState) (a : String) (r : ℚ),
      (pyLower a = "approve" ∨ pyLower a = "reject" ∨ pyLower a = "abstain") →
      (dictLookup (updateQValue ag s a r).q_table s =
        some (((dictLookup ag.q_table s).getD zeroEntry).set (pyLower a)
          (((dictLookup ag.q_table s).getD zeroEntry).get (pyLower a) +
            ag.learning_rate * (r + ag.discount_factor *
              ((dictLookup ag.q_table s).getD zeroEntry).maxVal -
              ((dictLookup ag.q_table s).getD zeroEntry).get (pyLower a))))) ∧
      (∀ s₂ : QState, s₂ ≠ s →
        dictLookup (updateQValue ag s a r).q_table s₂ =
          dictLookup ag.q_table s₂) ∧
      mkEnhancedLearningAgent.learning_rate = 1/10 ∧
      mkEnhancedLearningAgent.discount_factor = 95/100 := by
  intro ag s a r _
  refine ⟨?_, ?_, rfl, rfl⟩
  · show dictLookup (dictInsert
        (if dictMem ag.q_table s = true then ag.q_table
         else dictInsert ag.q_table s zeroEntry) s _) s = _
    rw [dictLookup_dictInsert_self, lookupD_lazy_init]
    rfl
  · intro s₂ hne
    show dictLookup (dictInsert
        (if dictMem ag.q_table s = true then ag.q_table
         else dictInsert ag.q_table s zeroEntry) s _) s₂ = _
    rw [dictLookup_dictInsert_ne _ _ _ _ hne]
    by_cases h : dictMem ag.q_table s = true
    · rw [if_pos h]
    · rw [if_neg h, dictLookup_dictInsert_ne _ _ _ _ hne]

/-- Witness for C8: one update at reward 1 on the unseen state
(normal, trade, medium) of a fresh agent. -/
theorem q_update_rule_witness :
    (pyLower "approve" = "approve" ∨ pyLower "approve" = "reject" ∨
      pyLower "approve" = "abstain") ∧
    dictLookup (updateQValue mkEnhancedLearningAgent
        ("normal", "trade", "medium") "approve" 1).q_table
        ("normal", "trade", "medium") =
      some (((dictLookup mkEnhancedLearningAgent.q_table
          ("normal", "trade", "medium")).getD zeroEntry).set
        (pyLower "approve")
        (((dictLookup mkEnhancedLearningAgent.q_table
            ("normal", "trade", "medium")).getD zeroEntry).get
          (pyLower "approve") +
          mkEnhancedLearningAgent.learning_rate * (1 +
            mkEnhancedLearningAgent.discount_factor *
            ((dictLookup mkEnhancedLearningAgent.q_table
                ("normal", "trade", "medium")).getD zeroEntry).maxVal -
            ((dictLookup mkEnhancedLearningAgent.q_table
                ("normal", "trade", "medium")).getD zeroEntry).get
              (pyLower "approve")))) :=
  ⟨by decide,
    (q_update_rule mkEnhancedLearningAgent ("normal", "trade", "medium")
      "approve" 1 (by decide)).1⟩

/-- A fresh agent with the exploration rate forced to 0 (pure
exploitation), as the RL round-trip scenario prescribes. -/
def explorationFreeAgent : EnhancedLearningAgent :=
  { mkEnhancedLearningAgent with exploration_rate := 0 }

/-- The RL state of the round-trip scenario:
(market_condition, proposal_type, risk_level). -/
def trainingState : QState := ("normal", "trade", "medium")

/-- The agent after `update(state, "approve", 1.0)` applied fifty times
starting from the zero-initialized state. -/
def trainedAgent : EnhancedLearningAgent :=
  Nat.iterate (fun ag => updateQValue ag trainingState "approve" 1) 50
    explorationFreeAgent

set_option maxRecDepth 40000 in
/-- C9.  After fifty updates of the approve action at reward 1.0 from the
zero-initialized state, prediction in exploitation mode (exploration rate
forced to 0, so any nonnegative random sample takes the exploit branch)
returns the action approve with confidence strictly above 0.5. -/
theorem trained_agent_predicts_approve :
    ∀ (rand : ℚ) (randAction : String), 0 ≤ rand →
      (predictVote trainedAgent "trade" "normal" "medium" rand randAction).1 =
        "approve" ∧
      (predictVote trainedAgent "trade" "normal" "medium"
        rand randAction).2.1 > 1/2 := by
  intro rand randAction hr
  have hrate : trainedAgent.exploration_rate = 0 := by decide
  have hnlt : ¬(rand < trainedAgent.exploration_rate) := by
    rw [hrate]; exact not_lt.mpr hr
  simp only [predictVote, hnlt, if_false, ite_false]
  constructor
  · decide
  · decide

set_option maxRecDepth 40000 in
/-- Witness for C9: the round-trip evaluated at the concrete sample 0 and
random action reject. -/
theorem trained_agent_predicts_approve_witness :
    (0 : ℚ) ≤ 0 ∧
    ((predictVote trainedAgent "trade" "normal" "medium" 0 "reject").1 =
        "approve" ∧
      (predictVote trainedAgent "trade" "normal" "medium" 0 "reject").2.1 >
        1/2) :=
  ⟨by decide, trained_agent_predicts_approve 0 "reject" (by decide)⟩

theorem argmax_val_ge_avg (e : QEntry) :
    (e.approve + e.reject + e.abstain) / 3 ≤ e.get e.argmax := by
  unfold QEntry.argmax
  split_ifs with h1 h2
  · have h3 : e.get "approve" = e.approve := rfl
    rw [h3]
    linarith [h1.1, h1.2]
  · have h3 : e.get "reject" = e.reject := rfl
    rw [h3]
    rcases not_and_or.mp h1 with h | h
    · linarith [not_le.mp h, h2]
    · linarith [not_le.mp h, h2]
  · have h3 : e.get "abstain" = e.abstain := rfl
    rw [h3]
    have h4 := not_le.mp h2
    rcases not_and_or.mp h1 with h | h
    · linarith [not_le.mp h]
    · linarith [not_le.mp h]

/-- C10.  In the exploitation branch (taken in particular whenever the
exploration rate is 0 and the sample is nonnegative) the returned
confidence is min(1, (maxQ − meanQ + 1)/2), which always lies in
[0.5, 1] because the argmax value is never below the mean of the three
action values; the exploration branch returns confidence exactly 0.33, so
a confidence below 0.5 can only come from an exploration step. -/
theorem predict_confidence_rule :
    ∀ (ag : EnhancedLearningAgent) (proposal_type market_condition
      risk_level : String) (rand : ℚ) (randAction : String),
      (ag.exploration_rate ≤ rand →
        ((predictVote ag proposal_type market_condition risk_level
            rand randAction).2.1 =
          min 1 ((((dictLookup ag.q_table (market_condition, proposal_type,
              risk_level)).getD zeroEntry).get
            ((dictLookup ag.q_table (market_condition, proposal_type,
              risk_level)).getD zeroEntry).argmax -
            (((dictLookup ag.q_table (market_condition, proposal_type,
              risk_level)).getD zeroEntry).approve +
             ((dictLookup ag.q_table (market_condition, proposal_type,
              risk_level)).getD zeroEntry).reject +
             ((dictLookup ag.q_table (market_condition, proposal_type,
              risk_level)).getD zeroEntry).abstain) / 3 + 1) / 2) ∧
        1/2 ≤ (predictVote ag proposal_type market_condition risk_level
            rand randAction).2.1 ∧
        (predictVote ag proposal_type market_condition risk_level
            rand randAction).2.1 ≤ 1)) ∧
      (rand < ag.exploration_rate →
        (predictVote ag proposal_type market_condition risk_level
            rand randAction).2.1 = 33/100) := by
  intro ag pt mc rl rand ra
  constructor
  · intro hle
    have hnlt : ¬(rand < ag.exploration_rate) := not_lt.mpr hle
    have hconf : (predictVote ag pt mc rl rand ra).2.1 =
        min 1 ((((dictLookup ag.q_table (mc, pt, rl)).getD zeroEntry).get
          ((dictLookup ag.q_table (mc, pt, rl)).getD zeroEntry).argmax -
          (((dictLookup ag.q_table (mc, pt, rl)).getD zeroEntry).approve +
           ((dictLookup ag.q_table (mc, pt, rl)).getD zeroEntry).reject +
           ((dictLookup ag.q_table (mc, pt, rl)).getD zeroEntry).abstain) /
            3 + 1) / 2) := by
      simp only [predictVote, hnlt, if_false, ite_false]
      rw [show lookupD (if dictMem ag.q_table (mc, pt, rl) = true
          then ag.q_table
          else dictInsert ag.q_table (mc, pt, rl) zeroEntry)
          (mc, pt, rl) zeroEntry =
          lookupD ag.q_table (mc, pt, rl) zeroEntry from
        lookupD_lazy_init ag.q_table (mc, pt, rl) zeroEntry]
      rfl
    have hge := argmax_val_ge_avg
      ((dictLookup ag.q_table (mc, pt, rl)).getD zeroEntry)
    refine ⟨hconf, ?_, ?_⟩
    · rw [hconf]
      refine le_min (by norm_num) ?_
      linarith
    · rw [hconf]
      exact min_le_left _ _
  · intro hlt
    simp only [predictVote, hlt, if_true, ite_true]

/-- Witness for C10: on a fresh agent (exploration rate 0.2), the sample 1
takes the exploitation branch and yields a confidence in [0.5, 1], while
the sample 0 takes the exploration branch and yields exactly 0.33. -/
theorem predict_confidence_rule_witness :
    (mkEnhancedLearningAgent.exploration_rate ≤ 1 ∧
      1/2 ≤ (predictVote mkEnhancedLearningAgent "trade" "normal" "medium"
          1 "reject").2.1 ∧
      (predictVote mkEnhancedLearningAgent "trade" "normal" "medium"
          1 "reject").2.1 ≤ 1) ∧
    ((0 : ℚ) < mkEnhancedLearningAgent.exploration_rate ∧
      (predictVote mkEnhancedLearningAgent "trade" "normal" "medium"
          0 "reject").2.1 = 33/100) :=
  ⟨⟨by decide,
    ((predict_confidence_rule mkEnhancedLearningAgent "trade" "normal"
      "medium" 1 "reject").1 (by decide)).2⟩,
   ⟨by decide,
    (predict_confidence_rule mkEnhancedLearningAgent "trade" "normal"
      "medium" 0 "reject").2 (by decide)⟩⟩
